import Mathlib

/-!
Shallow embedding of the space-weather-synth audio core: the data model
of types.ts, the smoothing and range-mapping utilities of
utils/smoothing.ts, the sample conversion of audio/wavEncode.ts, the
capture state machine of audio/Recorder.ts and the lifecycle, arp
envelope and data-mapping layer of audio/AudioEngine.ts.

Floating-point numbers are modelled as real numbers (rationals in the
byte-exact WAV encoder), Web Audio AudioParam automation calls are
modelled as explicit lists of scheduled events, and wall-clock data
(take ids, timestamps, durations) is omitted.
-/

namespace SpaceWeather

/-- types.ts: the four oscillator waveforms. -/
inductive Waveform
  | sine
  | triangle
  | sawtooth
  | square
  deriving DecidableEq

/-- types.ts VoiceConfig: note name plus octave. -/
structure VoiceConfig where
  note : String
  octave : Int
  deriving DecidableEq

/-- types.ts ADSRConfig. -/
structure ADSRConfig where
  attack : ℝ
  decay : ℝ
  sustain : ℝ
  release : ℝ

/-- types.ts DelayConfig. -/
structure DelayConfig where
  mix : ℝ
  time : ℝ
  feedback : ℝ

/-- types.ts ReverbConfig. -/
structure ReverbConfig where
  mix : ℝ
  decay : ℝ

/-- types.ts FilterConfig. -/
structure FilterConfig where
  cutoff : ℝ
  resonance : ℝ

/-- types.ts SynthParams. -/
structure SynthParams where
  masterVolume : ℝ
  waveform : Waveform
  adsr : ADSRConfig
  delay : DelayConfig
  reverb : ReverbConfig
  filter : FilterConfig
  sensitivity : ℝ
  voices : List VoiceConfig
  sharpElevenIntensity : ℝ
  arpEnabled : Bool
  arpRate : ℝ

/-- types.ts DataStream: the four telemetry stream kinds. -/
inductive DataStream
  | solarWindSpeed
  | solarWindDensity
  | kp
  | xray
  deriving DecidableEq

/-- types.ts NOTE_NAMES: the twelve chromatic note names C, C#, D, D#,
E, F, F#, G, G#, A, A#, B (written as a concatenation of the two
half-octaves; the value is the same 12-element list). -/
def NOTE_NAMES : List String :=
  ["C", "C#", "D", "D#", "E", "F"] ++ ["F#", "G", "G#", "A", "A#", "B"]

/-- types.ts noteToMidi: the -1 sentinel of Array.indexOf is modelled
by the none case of indexOf?. -/
def noteToMidi (note : String) (octave : Int) : Int :=
  match NOTE_NAMES.indexOf? note with
  | none => 60
  | some idx => (octave + 1) * 12 + idx

/-- types.ts DEFAULT_VOICES. -/
def DEFAULT_VOICES : List VoiceConfig :=
  [⟨"C#", 3⟩, ⟨"G#", 3⟩, ⟨"C", 4⟩, ⟨"F", 4⟩]

/-- types.ts DEFAULT_SYNTH_PARAMS. -/
def DEFAULT_SYNTH_PARAMS : SynthParams :=
  { masterVolume := 0.5
    waveform := Waveform.triangle
    adsr := ⟨3.0, 2.0, 0.6, 4.0⟩
    delay := ⟨0.2, 0.5, 0.2⟩
    reverb := ⟨0.35, 4.0⟩
    filter := ⟨2000, 1.5⟩
    sensitivity := 0.5
    voices := DEFAULT_VOICES
    sharpElevenIntensity := 0.15
    arpEnabled := true
    arpRate := 4000 }

/-- utils/smoothing.ts EMA: smoothing factor plus the nullable
smoothed value. -/
structure EMA where
  alpha : ℝ
  value : Option ℝ

/-- utils/smoothing.ts EMA.update: returns the new smoothed value
together with the updated state (the TS method mutates this.value and
returns it). -/
def EMA.update (e : EMA) (raw : ℝ) : ℝ × EMA :=
  match e.value with
  | none => (raw, { e with value := some raw })
  | some v =>
      let nv := e.alpha * raw + (1 - e.alpha) * v
      (nv, { e with value := some nv })

/-- utils/smoothing.ts EMA.reset. -/
def EMA.reset (e : EMA) : EMA := { e with value := none }

/-- utils/smoothing.ts mapRange: map a value from one range to
another, with the input fraction clamped to [0,1]. -/
noncomputable def mapRange (value inMin inMax outMin outMax : ℝ) : ℝ :=
  let t := max 0 (min 1 ((value - inMin) / (inMax - inMin)))
  outMin + t * (outMax - outMin)

/-- utils/smoothing.ts mapRangeLog: log-scale mapping with the same
clamped input fraction. -/
noncomputable def mapRangeLog (value inMin inMax outMin outMax : ℝ) : ℝ :=
  let t := max 0 (min 1 ((value - inMin) / (inMax - inMin)))
  let logMin := Real.log outMin
  let logMax := Real.log outMax
  Real.exp (logMin + t * (logMax - logMin))

/-- JS DataView.setInt16 truncates its argument toward zero; every
value encodeWav hands it is already within Int16 range, so no
wrap-around is modelled. -/
def ratTrunc (q : ℚ) : Int := if q < 0 then ⌈q⌉ else ⌊q⌋

/-- wavEncode.ts encodeWav lines 41-45, per-sample conversion: clamp
to [-1,1], then scale negative values by 0x8000 and non-negative ones
by 0x7FFF. -/
def toInt16 (sample : ℚ) : Int :=
  let s := max (-1) (min 1 sample)
  ratTrunc (if s < 0 then s * 0x8000 else s * 0x7FFF)

/-- wavEncode.ts encodeWav data chunk: interleave the channels sample
by sample and convert each sample to 16 bits (the fixed 44-byte
header is not modelled). -/
def encodeWavSamples (channelData : List (List ℚ)) : List Int :=
  let numSamples := (channelData.headD []).length
  (List.range numSamples).flatMap fun i =>
    channelData.map fun ch => toInt16 (ch.getD i 0)

/-- One captured block: samples per channel. -/
abbrev Frame := List (List ℚ)

/-- Recorder.ts capture state: the buffered blocks and the recording
flag (the audio nodes and the wall-clock start time are omitted). -/
structure RecState where
  buffers : List Frame
  recording : Bool

/-- Recorder.ts Take: the encoded PCM data; id, display name and
duration are wall-clock metadata and are omitted. -/
structure Take where
  data : List Int

/-- Recorder.ts worklet port handler (and the ScriptProcessor
fallback): a block is appended only while the recording flag is set. -/
def RecState.push (s : RecState) (f : Frame) : RecState :=
  if s.recording then { s with buffers := s.buffers ++ [f] } else s

/-- Pushing a sequence of blocks in order. -/
def RecState.pushAll (s : RecState) (fs : List Frame) : RecState :=
  fs.foldl RecState.push s

/-- Recorder.ts startRecording: clears the buffer and raises the
recording flag. -/
def RecState.startRecording (_s : RecState) : RecState :=
  { buffers := [], recording := true }

/-- Recorder.ts stopRecording lines 89-103: channel count from the
first block (default 2 when that block is empty), then per-channel
concatenation into a buffer of totalSamples entries, zero-filled at
the tail where a block lacks the channel. -/
def mergeChannels (buffers : List Frame) : List (List ℚ) :=
  let n0 := (buffers.headD []).length
  let numChannels := if n0 = 0 then 2 else n0
  let totalSamples := (buffers.map fun f => (f.headD []).length).sum
  (List.range numChannels).map fun ch =>
    let packed := buffers.flatMap fun f => f.getD ch []
    packed ++ List.replicate (totalSamples - packed.length) 0

/-- Recorder.ts stopRecording: none while not recording; none (flag
cleared) when no blocks were captured; otherwise the encoded Take and
a cleared buffer. -/
def RecState.stopRecording (s : RecState) : Option Take × RecState :=
  if !s.recording then (none, s)
  else if s.buffers.isEmpty then (none, { s with recording := false })
  else (some ⟨encodeWavSamples (mergeChannels s.buffers)⟩,
        { s with recording := false, buffers := [] })

/-- The parameters AudioEngine.applyDataMapping automates. -/
inductive AParam
  | filterCutoff
  | filterQ
  | reverbMix
  | lfoDepth
  | sharpElevenGain
  deriving DecidableEq

/-- One setTargetAtTime call: an exponential approach toward target
with time constant tau, anchored at the current context time. -/
structure SchedEvent where
  param : AParam
  target : ℝ
  tau : ℝ

/-- AudioEngine.ts state: the context/running/starting flags, arp
state, engine-held params, voice pool sizes, the base LFO depth gain
(set to 80 when the graph is built), the data EMA and the recent raw
values. Graph nodes whose values no claim reads are omitted. -/
structure AudioEngine where
  ctxAlive : Bool
  running : Bool
  starting : Bool
  arpEnabled : Bool
  arpTimer : Bool
  arpRate : ℝ
  params : SynthParams
  voices : Nat
  sharpElevenVoice : Bool
  lfoDepth : ℝ
  dataEma : EMA
  recentValues : List ℝ

/-- AudioEngine.start: early return (lines 112-116) when the context
is gone or the engine already runs, clearing only the starting lock;
otherwise the graph is built, buildVoices appends params.voices
oscillators plus the color voice, the LFO depth gain is set to 80,
and the running flag is raised; scheduleArpStep arms the timer when
the arp is enabled. -/
def AudioEngine.start (e : AudioEngine) (p : SynthParams) : AudioEngine :=
  if !e.ctxAlive || e.running then
    { e with starting := false }
  else
    { e with
      params := p
      arpRate := p.arpRate
      lfoDepth := 80
      voices := e.voices + p.voices.length
      sharpElevenVoice := true
      running := true
      starting := false
      arpTimer := if p.arpEnabled then true else e.arpTimer }

/-- AudioEngine.stop: early return when the context is already gone;
otherwise the timer is cleared, gains ramp down, the running flag and
context are dropped at once, and the deferred teardown (2 s later)
that releases the oscillators is folded into the same step. -/
def AudioEngine.stop (e : AudioEngine) : AudioEngine :=
  if !e.ctxAlive then e
  else
    { e with
      starting := false
      arpTimer := false
      running := false
      ctxAlive := false
      voices := 0
      sharpElevenVoice := false }

/-- AudioEngine.setArpRate. -/
def AudioEngine.setArpRate (e : AudioEngine) (ms : ℝ) : AudioEngine :=
  { e with arpRate := max 300 (min 16000 ms) }

/-- AudioEngine.resetDataSmoothing. -/
def AudioEngine.resetDataSmoothing (e : AudioEngine) : AudioEngine :=
  { e with dataEma := e.dataEma.reset, recentValues := [] }

/-- Result of applyDataMapping: the returned smoothed value, the
updated engine state, and the setTargetAtTime calls issued. -/
structure MapResult where
  smoothedValue : ℝ
  engine : AudioEngine
  events : List SchedEvent

/-- AudioEngine.applyDataMapping lines 434-489: always advance the
EMA; when the context is gone, the engine is stopped or the data is
frozen, return the smoothed value and touch nothing else; otherwise
record the raw value (window of 50) and drive the per-stream
mappings, each scheduled with time constant ramp = 1.5. -/
noncomputable def AudioEngine.applyDataMapping (e : AudioEngine) (stream : DataStream)
    (rawValue sensitivity : ℝ) (frozen : Bool) : MapResult :=
  let u := e.dataEma.update rawValue
  let smoothed := u.1
  let e0 : AudioEngine := { e with dataEma := u.2 }
  if !e.ctxAlive || !e.running || frozen then
    ⟨smoothed, e0, []⟩
  else
    let pushed := e0.recentValues ++ [rawValue]
    let e1 : AudioEngine :=
      { e0 with recentValues := if pushed.length > 50 then pushed.tail else pushed }
    let ramp : ℝ := 1.5
    let s := sensitivity
    match stream with
    | DataStream.solarWindSpeed =>
        let cutoff := mapRangeLog smoothed 250 800 400 4000
        let target := e1.params.filter.cutoff + (cutoff - e1.params.filter.cutoff) * s
        let arpMs := mapRange smoothed 250 800 5000 1500
        ⟨smoothed, e1.setArpRate arpMs, [⟨AParam.filterCutoff, target, ramp⟩]⟩
    | DataStream.solarWindDensity =>
        let revMix := mapRange smoothed 1 20 0.15 0.65 * s + e1.params.reverb.mix * (1 - s)
        ⟨smoothed, e1, [⟨AParam.reverbMix, revMix, ramp⟩]⟩
    | DataStream.kp =>
        let lfoD := mapRange smoothed 0 9 30 300 * s
        let colEvents :=
          if e1.sharpElevenVoice then
            [SchedEvent.mk AParam.sharpElevenGain (mapRange smoothed 0 9 0.02 0.25 * s) ramp]
          else []
        let res := mapRange smoothed 0 9 0.5 6 * s + e1.params.filter.resonance * (1 - s)
        ⟨smoothed, e1,
          ⟨AParam.lfoDepth, lfoD, ramp⟩ :: (colEvents ++ [⟨AParam.filterQ, res, ramp⟩])⟩
    | DataStream.xray =>
        let logFlux := Real.logb 10 (max smoothed (1 / 1000000000))
        let norm := mapRange logFlux (-8) (-4) 0 1
        let cutoff := mapRangeLog norm 0 1 600 5000 * s + e1.params.filter.cutoff * (1 - s)
        let rev := mapRange norm 0 1 0.1 0.6 * s + e1.params.reverb.mix * (1 - s)
        ⟨smoothed, e1, [⟨AParam.filterCutoff, cutoff, ramp⟩, ⟨AParam.reverbMix, rev, ramp⟩]⟩

/-- AudioEngine.triggerArpNote lines 307-316: the envelope scheduled
for one fired voice, as a function of the two uniform draws r1 and r2
(each in [0,1)). -/
structure ArpEnvelope where
  peakLevel : ℝ
  attack : ℝ
  holdTime : ℝ
  decayTau : ℝ

/-- The envelope numbers computed by triggerArpNote for a chosen
voice: peak (0.35 + r1·0.2)·sustain, attack 0.1 + r2·(attack·0.3),
hold and decay constants from the arp rate. -/
noncomputable def triggerArpEnvelope (sustain attackParam arpRate r1 r2 : ℝ) : ArpEnvelope :=
  { peakLevel := (0.35 + r1 * 0.2) * sustain
    attack := 0.1 + r2 * (attackParam * 0.3)
    holdTime := arpRate / 1000 * 0.3
    decayTau := arpRate / 1000 * 0.4 }

/-- A running engine as built by start on a fresh context with the
default parameters, whose data EMA (alpha 0.12, as constructed in
AudioEngine.ts line 68) has been primed at 9. -/
def engKp : AudioEngine :=
  { ctxAlive := true
    running := true
    starting := false
    arpEnabled := true
    arpTimer := true
    arpRate := 4000
    params := DEFAULT_SYNTH_PARAMS
    voices := 4
    sharpElevenVoice := true
    lfoDepth := 80
    dataEma := ⟨0.12, some 9⟩
    recentValues := [] }

/-- C7: for every input ms, setArpRate stores an arpeggiator rate in
[300, 16000] milliseconds, and the stored rate equals
max(300, min(16000, ms)). -/
theorem C7_setArpRate_clamps (e : AudioEngine) (ms : ℝ) :
    300 ≤ (e.setArpRate ms).arpRate ∧ (e.setArpRate ms).arpRate ≤ 16000 ∧
      (e.setArpRate ms).arpRate = max 300 (min 16000 ms) :=
  ⟨le_max_left _ _, max_le (by norm_num) (min_le_left _ _), rfl⟩

/-- C10: for every octave and every note string that is not one of the
twelve names in NOTE_NAMES, noteToMidi returns 60 regardless of the
octave argument. -/
theorem C10_noteToMidi_invalid (note : String) (octave : Int)
    (h : note ∉ NOTE_NAMES) : noteToMidi note octave = 60 := by
  unfold noteToMidi
  have hidx : NOTE_NAMES.indexOf? note = none := by
    rw [List.indexOf?_eq_none_iff]
    intro x hx
    simp only [beq_iff_eq]
    exact fun heq => h (heq ▸ hx)
  rw [hidx]

/-- Witness for C10 at the invalid note name H and octave 7. -/
theorem C10_noteToMidi_invalid_witness :
    "H" ∉ NOTE_NAMES ∧ noteToMidi "H" 7 = 60 :=
  ⟨by decide, C10_noteToMidi_invalid "H" 7 (by decide)⟩

/-- C3: with a smoothing factor strictly between 0 and 1 (the code
uses 0.15 by default and 0.12 in the engine), EMA.update returns the
raw input exactly on the first call after construction or reset, and
otherwise returns a value lying between the previous smoothed value
and the new raw input, namely the convex combination
alpha times raw plus (1 - alpha) times previous. -/
theorem C3_ema_update_convex (a prev raw : ℝ) (e : EMA)
    (h0 : 0 < a) (h1 : a < 1) :
    (EMA.update ⟨a, none⟩ raw).1 = raw ∧
    ((e.reset).update raw).1 = raw ∧
    min prev raw ≤ (EMA.update ⟨a, some prev⟩ raw).1 ∧
    (EMA.update ⟨a, some prev⟩ raw).1 ≤ max prev raw ∧
    (EMA.update ⟨a, some prev⟩ raw).1 = a * raw + (1 - a) * prev := by
  refine ⟨rfl, rfl, ?_, ?_, rfl⟩
  · rw [show (EMA.update ⟨a, some prev⟩ raw).1 = a * raw + (1 - a) * prev from rfl]
    rcases le_total prev raw with h | h
    · rw [min_eq_left h]; nlinarith
    · rw [min_eq_right h]; nlinarith
  · rw [show (EMA.update ⟨a, some prev⟩ raw).1 = a * raw + (1 - a) * prev from rfl]
    rcases le_total prev raw with h | h
    · rw [max_eq_right h]; nlinarith
    · rw [max_eq_left h]; nlinarith

/-- Witness for C3 at the engine smoothing factor 0.12, previous
smoothed value 3 and raw input 7. -/
theorem C3_ema_update_convex_witness :
    (EMA.update ⟨0.12, none⟩ 7).1 = 7 ∧
    ((EMA.reset ⟨0.12, some 3⟩).update 7).1 = 7 ∧
    min 3 7 ≤ (EMA.update ⟨0.12, some 3⟩ 7).1 ∧
    (EMA.update ⟨0.12, some 3⟩ 7).1 ≤ max 3 7 ∧
    (EMA.update ⟨0.12, some 3⟩ 7).1 = 0.12 * 7 + (1 - 0.12) * 3 :=
  C3_ema_update_convex 0.12 3 7 ⟨0.12, some 3⟩ (by norm_num) (by norm_num)

/-- C9: for every draw of the random values in [0,1), a voice fired by
triggerArpNote with sustain 0.6 gets a peak envelope gain in
[0.35 times 0.6, 0.55 times 0.6] = [0.21, 0.33], and its linear-ramp
attack duration lies in [0.1, 0.1 + 0.3 times attackParam] seconds. -/
theorem C9_arp_envelope_bounds (attackParam arpRate r1 r2 : ℝ)
    (ha : 0 ≤ attackParam) (h1 : 0 ≤ r1) (h2 : r1 < 1)
    (h3 : 0 ≤ r2) (h4 : r2 < 1) :
    0.21 ≤ (triggerArpEnvelope 0.6 attackParam arpRate r1 r2).peakLevel ∧
    (triggerArpEnvelope 0.6 attackParam arpRate r1 r2).peakLevel ≤ 0.33 ∧
    0.1 ≤ (triggerArpEnvelope 0.6 attackParam arpRate r1 r2).attack ∧
    (triggerArpEnvelope 0.6 attackParam arpRate r1 r2).attack
      ≤ 0.1 + 0.3 * attackParam := by
  unfold triggerArpEnvelope
  refine ⟨by norm_num; nlinarith, by norm_num; nlinarith, ?_, ?_⟩
  · simp only
    nlinarith [mul_nonneg h3 (mul_nonneg ha (by norm_num : (0:ℝ) ≤ 0.3))]
  · simp only
    nlinarith

/-- Witness for C9 at attack parameter 3.0, arp rate 3000 ms, and both
random draws equal to one half. -/
theorem C9_arp_envelope_bounds_witness :
    0.21 ≤ (triggerArpEnvelope 0.6 3.0 3000 (1/2) (1/2)).peakLevel ∧
    (triggerArpEnvelope 0.6 3.0 3000 (1/2) (1/2)).peakLevel ≤ 0.33 ∧
    0.1 ≤ (triggerArpEnvelope 0.6 3.0 3000 (1/2) (1/2)).attack ∧
    (triggerArpEnvelope 0.6 3.0 3000 (1/2) (1/2)).attack ≤ 0.1 + 0.3 * 3.0 :=
  C9_arp_envelope_bounds 3.0 3000 (1/2) (1/2) (by norm_num) (by norm_num)
    (by norm_num) (by norm_num) (by norm_num)

/-- Mapping an index-read over the range of a list is mapping over the
list itself. -/
theorem range_map_getD {α β : Type} (d : α) (f : α → β) (xs : List α) :
    (List.range xs.length).map (fun i => f (xs.getD i d)) = xs.map f := by
  induction xs with
  | nil => rfl
  | cons y t ih =>
      rw [List.length_cons, List.range_succ_eq_map, List.map_cons, List.map_map]
      simp only [List.getD_cons_zero, Function.comp_def, List.getD_cons_succ]
      rw [ih]
      rfl

/-- Flat-mapping singletons is mapping. -/
theorem flatMap_singleton_eq_map {α β : Type} (l : List α) (g : α → β) :
    l.flatMap (fun a => [g a]) = l.map g := by
  induction l with
  | nil => rfl
  | cons a t ih => simp [List.flatMap_cons, ih]

/-- Encoding a single (mono) channel interleaves nothing: the data
chunk is the per-sample conversion of the channel. -/
theorem encodeWavSamples_mono (xs : List ℚ) :
    encodeWavSamples [xs] = xs.map toInt16 := by
  unfold encodeWavSamples
  simp only [List.headD_cons, List.map_cons, List.map_nil]
  rw [flatMap_singleton_eq_map, range_map_getD]

/-- The sign-aware truncation never goes below -32768 when its
argument does not. -/
theorem ratTrunc_lower {q : ℚ} (h : -32768 ≤ q) : -32768 ≤ ratTrunc q := by
  unfold ratTrunc
  split_ifs with hq
  · have h2 := Int.ceil_le_ceil (α := ℚ) h
    simpa using h2
  · push_neg at hq
    exact le_trans (by norm_num) (Int.floor_nonneg.mpr hq)

/-- The sign-aware truncation never exceeds 32767 when its argument
does not. -/
theorem ratTrunc_upper {q : ℚ} (h : q ≤ 32767) : ratTrunc q ≤ 32767 := by
  unfold ratTrunc
  split_ifs with hq
  · have h2 := Int.ceil_le_ceil (α := ℚ) h
    simpa using h2
  · have h2 := Int.floor_le_floor (α := ℚ) h
    simpa using h2

/-- Every encoded sample lies in the signed 16-bit range. -/
theorem toInt16_bounds (x : ℚ) : -32768 ≤ toInt16 x ∧ toInt16 x ≤ 32767 := by
  have hs1 : (-1 : ℚ) ≤ max (-1) (min 1 x) := le_max_left _ _
  have hs2 : max (-1) (min 1 x) ≤ 1 := max_le (by norm_num) (min_le_left _ _)
  simp only [toInt16]
  constructor
  · apply ratTrunc_lower
    split_ifs with h <;> nlinarith
  · apply ratTrunc_upper
    split_ifs with h <;> nlinarith

/-- Inputs at or above 1 saturate to 32767. -/
theorem toInt16_sat_hi {x : ℚ} (h : 1 ≤ x) : toInt16 x = 32767 := by
  simp only [toInt16]
  rw [min_eq_left h, max_eq_right (by norm_num : (-1 : ℚ) ≤ 1),
    if_neg (by norm_num)]
  norm_num [ratTrunc]

/-- Inputs at or below -1 saturate to -32768. -/
theorem toInt16_sat_lo {x : ℚ} (h : x ≤ -1) : toInt16 x = -32768 := by
  simp only [toInt16]
  rw [min_eq_right (h.trans (by norm_num)), max_eq_left h,
    if_pos (by norm_num : (-1 : ℚ) < 0),
    show (-1 : ℚ) * 32768 = ((-32768 : ℤ) : ℚ) by norm_num]
  unfold ratTrunc
  rw [if_pos (by norm_num : ((-32768 : ℤ) : ℚ) < 0), Int.ceil_intCast]

/-- In-range negative inputs are scaled by 32768. -/
theorem toInt16_neg_range {x : ℚ} (h1 : -1 ≤ x) (h2 : x < 0) :
    toInt16 x = ratTrunc (x * 32768) := by
  simp only [toInt16]
  rw [min_eq_right (h2.le.trans (by norm_num)), max_eq_right h1, if_pos h2]

/-- In-range non-negative inputs are scaled by 32767. -/
theorem toInt16_nonneg_range {x : ℚ} (h1 : 0 ≤ x) (h2 : x ≤ 1) :
    toInt16 x = ratTrunc (x * 32767) := by
  simp only [toInt16]
  rw [min_eq_right h2, max_eq_right (by linarith : (-1 : ℚ) ≤ x),
    if_neg (not_lt.mpr h1)]

/-- C2: the per-sample WAV conversion clamps to [-1,1] and sign-scales
(negative values times 32768, non-negative times 32767) before the
truncation DataView.setInt16 applies, so every encoded sample is a
16-bit signed integer, saturated inputs hit 32767 and -32768, the
samples 1.0 and -1.0 encode to 32767 and -32768, in-range inputs are
scaled by the sign-dependent factor, and the mono encoder is exactly
this conversion mapped over the samples. -/
theorem C2_toInt16_encode (x : ℚ) :
    (-32768 ≤ toInt16 x ∧ toInt16 x ≤ 32767) ∧
    (1 ≤ x → toInt16 x = 32767) ∧
    (x ≤ -1 → toInt16 x = -32768) ∧
    toInt16 1 = 32767 ∧
    toInt16 (-1) = -32768 ∧
    (-1 ≤ x → x < 0 → toInt16 x = ratTrunc (x * 32768)) ∧
    (0 ≤ x → x ≤ 1 → toInt16 x = ratTrunc (x * 32767)) ∧
    ∀ xs : List ℚ, encodeWavSamples [xs] = xs.map toInt16 :=
  ⟨toInt16_bounds x, fun h => toInt16_sat_hi h, fun h => toInt16_sat_lo h,
   toInt16_sat_hi le_rfl, toInt16_sat_lo le_rfl,
   fun h1 h2 => toInt16_neg_range h1 h2,
   fun h1 h2 => toInt16_nonneg_range h1 h2,
   encodeWavSamples_mono⟩

/-- Witness for C2 at the sample three quarters. -/
theorem C2_toInt16_encode_witness :
    ((-32768 ≤ toInt16 (3/4) ∧ toInt16 (3/4) ≤ 32767) ∧
    (1 ≤ (3/4 : ℚ) → toInt16 (3/4) = 32767) ∧
    ((3/4 : ℚ) ≤ -1 → toInt16 (3/4) = -32768) ∧
    toInt16 1 = 32767 ∧
    toInt16 (-1) = -32768 ∧
    (-1 ≤ (3/4 : ℚ) → (3/4 : ℚ) < 0 → toInt16 (3/4) = ratTrunc (3/4 * 32768)) ∧
    (0 ≤ (3/4 : ℚ) → (3/4 : ℚ) ≤ 1 → toInt16 (3/4) = ratTrunc (3/4 * 32767)) ∧
    ∀ xs : List ℚ, encodeWavSamples [xs] = xs.map toInt16) :=
  C2_toInt16_encode (3/4)

/-- Pushing blocks while the recording flag is set appends them in
order. -/
theorem pushAll_recording_true (fs : List Frame) (s : RecState)
    (h : s.recording = true) : s.pushAll fs = ⟨s.buffers ++ fs, true⟩ := by
  induction fs generalizing s with
  | nil =>
      obtain ⟨b, r⟩ := s
      subst h
      simp [RecState.pushAll]
  | cons f t ih =>
      obtain ⟨b, r⟩ := s
      subst h
      show RecState.pushAll (RecState.push ⟨b, true⟩ f) t = _
      rw [show RecState.push ⟨b, true⟩ f = ⟨b ++ [f], true⟩ from by
        simp [RecState.push]]
      rw [ih ⟨b ++ [f], true⟩ rfl]
      simp

/-- C6: blocks pushed before startRecording never appear in the Take
of the next stopRecording (the Take is a function of the post-start
blocks alone); a stop with no captured blocks yields no Take; and a
second stopRecording in a row always yields none. -/
theorem C6_capture_boundaries (s : RecState) (pre post : List Frame) :
    ((RecState.pushAll (RecState.startRecording (s.pushAll pre)) post).stopRecording.1 =
      if post.isEmpty then none
      else some ⟨encodeWavSamples (mergeChannels post)⟩) ∧
    ((RecState.pushAll (RecState.startRecording (s.pushAll pre)) post).stopRecording.2.stopRecording.1 =
      none) := by
  have h1 : RecState.pushAll (RecState.startRecording (s.pushAll pre)) post =
      ⟨post, true⟩ := by
    rw [show RecState.startRecording (s.pushAll pre) = ⟨[], true⟩ from rfl]
    rw [pushAll_recording_true post ⟨[], true⟩ rfl]
    simp
  rw [h1]
  by_cases hp : post.isEmpty <;> simp [RecState.stopRecording, hp]

/-- C8: a second start without an intervening stop leaves the engine
state unchanged (the graph is not rebuilt, no voices are appended),
and stop is idempotent: stopping an already stopped engine changes
nothing. -/
theorem C8_lifecycle_idempotent (e : AudioEngine) (p q : SynthParams) :
    (e.start p).start q = e.start p ∧
    e.stop.stop = e.stop ∧
    (e.ctxAlive = false → e.stop = e) := by
  obtain ⟨c, r, st, ae, tmr, ar, pp, v, sh, lf, de, rv⟩ := e
  refine ⟨?_, ?_, ?_⟩
  · cases c <;> cases r <;> simp [AudioEngine.start]
  · cases c <;> simp [AudioEngine.stop]
  · intro h
    subst h
    simp [AudioEngine.stop]

/-- Witness for C8: stopping a concrete engine whose context is gone
is the identity. -/
theorem C8_lifecycle_idempotent_witness :
    ({ engKp with ctxAlive := false } : AudioEngine).ctxAlive = false ∧
    ({ engKp with ctxAlive := false } : AudioEngine).stop =
      { engKp with ctxAlive := false } :=
  ⟨rfl, (C8_lifecycle_idempotent { engKp with ctxAlive := false }
    DEFAULT_SYNTH_PARAMS DEFAULT_SYNTH_PARAMS).2.2 rfl⟩

/-- C4: with frozen set (or the engine not running), applyDataMapping
schedules no parameter change and leaves the whole engine state
untouched except for the advanced EMA, whose updated smoothed value
it still returns. -/
theorem C4_frozen_untouched (e : AudioEngine) (stream : DataStream)
    (raw s : ℝ) (frozen : Bool)
    (h : frozen = true ∨ e.running = false) :
    (e.applyDataMapping stream raw s frozen).events = [] ∧
    (e.applyDataMapping stream raw s frozen).engine =
      { e with dataEma := (e.dataEma.update raw).2 } ∧
    (e.applyDataMapping stream raw s frozen).smoothedValue =
      (e.dataEma.update raw).1 := by
  rcases h with h | h
  · subst h
    refine ⟨?_, ?_, ?_⟩ <;> simp [AudioEngine.applyDataMapping]
  · refine ⟨?_, ?_, ?_⟩ <;> simp [AudioEngine.applyDataMapping, h]

/-- Witness for C4: freezing the concrete running engine returns the
smoothed value and schedules nothing. -/
theorem C4_frozen_untouched_witness :
    (true = true ∨ engKp.running = false) ∧
    ((engKp.applyDataMapping DataStream.kp 9 (1/2) true).events = [] ∧
     (engKp.applyDataMapping DataStream.kp 9 (1/2) true).engine =
       { engKp with dataEma := (engKp.dataEma.update 9).2 } ∧
     (engKp.applyDataMapping DataStream.kp 9 (1/2) true).smoothedValue =
       (engKp.dataEma.update 9).1) :=
  ⟨Or.inl rfl, C4_frozen_untouched engKp DataStream.kp 9 (1/2) true (Or.inl rfl)⟩

/-- The clamped input fraction is non-negative. -/
theorem tfrac_nonneg (v inMin inMax : ℝ) :
    0 ≤ max 0 (min 1 ((v - inMin) / (inMax - inMin))) := le_max_left _ _

/-- The clamped input fraction is at most one. -/
theorem tfrac_le_one (v inMin inMax : ℝ) :
    max 0 (min 1 ((v - inMin) / (inMax - inMin))) ≤ 1 :=
  max_le zero_le_one (min_le_left _ _)

/-- The clamped input fraction is monotone in the value. -/
theorem tfrac_mono (inMin inMax : ℝ) (h : inMin < inMax) {a b : ℝ}
    (hab : a ≤ b) :
    max 0 (min 1 ((a - inMin) / (inMax - inMin))) ≤
      max 0 (min 1 ((b - inMin) / (inMax - inMin))) := by
  have hd : (0 : ℝ) < inMax - inMin := by linarith
  exact max_le_max le_rfl
    (min_le_min le_rfl ((div_le_div_right hd).mpr (by linarith)))

/-- Below the input range the clamped fraction is 0. -/
theorem tfrac_of_le_inMin (v inMin inMax : ℝ) (h : inMin < inMax)
    (hv : v ≤ inMin) :
    max 0 (min 1 ((v - inMin) / (inMax - inMin))) = 0 := by
  have hd : (0 : ℝ) < inMax - inMin := by linarith
  have hnp : (v - inMin) / (inMax - inMin) ≤ 0 := by
    have h2 := (div_le_div_right hd).mpr (show v - inMin ≤ 0 by linarith)
    rwa [zero_div] at h2
  rw [min_eq_right (hnp.trans zero_le_one), max_eq_left hnp]

/-- Above the input range the clamped fraction is 1. -/
theorem tfrac_of_inMax_le (v inMin inMax : ℝ) (h : inMin < inMax)
    (hv : inMax ≤ v) :
    max 0 (min 1 ((v - inMin) / (inMax - inMin))) = 1 := by
  have hd : (0 : ℝ) < inMax - inMin := by linarith
  have h1 : 1 ≤ (v - inMin) / (inMax - inMin) := by
    rw [le_div_iff hd]
    linarith
  rw [min_eq_left h1, max_eq_right zero_le_one]

/-- mapRange is monotone in its value argument for an increasing
output range. -/
theorem mapRange_mono (inMin inMax outMin outMax : ℝ) (h : inMin < inMax)
    (ho : outMin ≤ outMax) :
    Monotone (fun v => mapRange v inMin inMax outMin outMax) := by
  intro a b hab
  simp only [mapRange]
  have ht := tfrac_mono inMin inMax h hab
  nlinarith [mul_le_mul_of_nonneg_right ht
    (show (0 : ℝ) ≤ outMax - outMin by linarith)]

/-- mapRange is antitone in its value argument for a decreasing
output range. -/
theorem mapRange_anti (inMin inMax outMin outMax : ℝ) (h : inMin < inMax)
    (ho : outMax ≤ outMin) :
    Antitone (fun v => mapRange v inMin inMax outMin outMax) := by
  intro a b hab
  simp only [mapRange]
  have ht := tfrac_mono inMin inMax h hab
  nlinarith [mul_le_mul_of_nonpos_right ht
    (show outMax - outMin ≤ 0 by linarith)]

/-- mapRange never leaves the interval spanned by the output range. -/
theorem mapRange_bounds (v inMin inMax outMin outMax : ℝ)
    (h : inMin < inMax) :
    min outMin outMax ≤ mapRange v inMin inMax outMin outMax ∧
      mapRange v inMin inMax outMin outMax ≤ max outMin outMax := by
  simp only [mapRange]
  have t0 := tfrac_nonneg v inMin inMax
  have t1 := tfrac_le_one v inMin inMax
  rcases le_total outMin outMax with hc | hc
  · rw [min_eq_left hc, max_eq_right hc]
    constructor <;> nlinarith
  · rw [min_eq_right hc, max_eq_left hc]
    constructor <;> nlinarith

/-- mapRangeLog is monotone in its value argument for an increasing
positive output range. -/
theorem mapRangeLog_mono (inMin inMax outMin outMax : ℝ)
    (h : inMin < inMax) (h1 : 0 < outMin) (ho : outMin ≤ outMax) :
    Monotone (fun v => mapRangeLog v inMin inMax outMin outMax) := by
  intro a b hab
  simp only [mapRangeLog]
  apply Real.exp_le_exp.mpr
  have ht := tfrac_mono inMin inMax h hab
  have hlog : Real.log outMin ≤ Real.log outMax := Real.log_le_log h1 ho
  nlinarith [mul_le_mul_of_nonneg_right ht
    (show (0 : ℝ) ≤ Real.log outMax - Real.log outMin by linarith)]

/-- mapRangeLog is antitone in its value argument for a decreasing
positive output range. -/
theorem mapRangeLog_anti (inMin inMax outMin outMax : ℝ)
    (h : inMin < inMax) (h2 : 0 < outMax) (ho : outMax ≤ outMin) :
    Antitone (fun v => mapRangeLog v inMin inMax outMin outMax) := by
  intro a b hab
  simp only [mapRangeLog]
  apply Real.exp_le_exp.mpr
  have ht := tfrac_mono inMin inMax h hab
  have hlog : Real.log outMax ≤ Real.log outMin := Real.log_le_log h2 ho
  nlinarith [mul_le_mul_of_nonpos_right ht
    (show Real.log outMax - Real.log outMin ≤ 0 by linarith)]

/-- mapRangeLog never leaves the interval spanned by a positive
output range. -/
theorem mapRangeLog_bounds (v inMin inMax outMin outMax : ℝ)
    (h : inMin < inMax) (h1 : 0 < outMin) (h2 : 0 < outMax) :
    min outMin outMax ≤ mapRangeLog v inMin inMax outMin outMax ∧
      mapRangeLog v inMin inMax outMin outMax ≤ max outMin outMax := by
  simp only [mapRangeLog]
  have t0 := tfrac_nonneg v inMin inMax
  have t1 := tfrac_le_one v inMin inMax
  rcases le_total outMin outMax with hc | hc
  · have hlog : Real.log outMin ≤ Real.log outMax := Real.log_le_log h1 hc
    rw [min_eq_left hc, max_eq_right hc]
    constructor
    · conv_lhs => rw [← Real.exp_log h1]
      exact Real.exp_le_exp.mpr (by nlinarith)
    · conv_rhs => rw [← Real.exp_log h2]
      exact Real.exp_le_exp.mpr (by nlinarith)
  · have hlog : Real.log outMax ≤ Real.log outMin := Real.log_le_log h2 hc
    rw [min_eq_right hc, max_eq_left hc]
    constructor
    · conv_lhs => rw [← Real.exp_log h2]
      exact Real.exp_le_exp.mpr (by nlinarith)
    · conv_rhs => rw [← Real.exp_log h1]
      exact Real.exp_le_exp.mpr (by nlinarith)

/-- C5: for a fixed range pair with inMin < inMax, mapRange and
mapRangeLog are monotonic (monotone for an increasing output range,
antitone for a decreasing one) in their value argument on
[inMin, inMax], constant outside it (values below inMin map like
inMin, values above inMax map like inMax), and their output never
extrapolates beyond the interval spanned by the output range (for
mapRangeLog under positivity of the output endpoints, as required by
its logarithms). -/
theorem C5_range_maps_clamped (inMin inMax outMin outMax : ℝ)
    (h : inMin < inMax) :
    (outMin ≤ outMax →
      MonotoneOn (fun v => mapRange v inMin inMax outMin outMax)
        (Set.Icc inMin inMax)) ∧
    (outMax ≤ outMin →
      AntitoneOn (fun v => mapRange v inMin inMax outMin outMax)
        (Set.Icc inMin inMax)) ∧
    (∀ v, v ≤ inMin →
      mapRange v inMin inMax outMin outMax =
        mapRange inMin inMin inMax outMin outMax) ∧
    (∀ v, inMax ≤ v →
      mapRange v inMin inMax outMin outMax =
        mapRange inMax inMin inMax outMin outMax) ∧
    (∀ v, min outMin outMax ≤ mapRange v inMin inMax outMin outMax ∧
      mapRange v inMin inMax outMin outMax ≤ max outMin outMax) ∧
    (0 < outMin → 0 < outMax →
      (outMin ≤ outMax →
        MonotoneOn (fun v => mapRangeLog v inMin inMax outMin outMax)
          (Set.Icc inMin inMax)) ∧
      (outMax ≤ outMin →
        AntitoneOn (fun v => mapRangeLog v inMin inMax outMin outMax)
          (Set.Icc inMin inMax)) ∧
      (∀ v, min outMin outMax ≤ mapRangeLog v inMin inMax outMin outMax ∧
        mapRangeLog v inMin inMax outMin outMax ≤ max outMin outMax)) ∧
    (∀ v, v ≤ inMin →
      mapRangeLog v inMin inMax outMin outMax =
        mapRangeLog inMin inMin inMax outMin outMax) ∧
    (∀ v, inMax ≤ v →
      mapRangeLog v inMin inMax outMin outMax =
        mapRangeLog inMax inMin inMax outMin outMax) := by
  refine ⟨fun ho => (mapRange_mono inMin inMax outMin outMax h ho).monotoneOn _,
    fun ho => (mapRange_anti inMin inMax outMin outMax h ho).antitoneOn _,
    ?_, ?_,
    fun v => mapRange_bounds v inMin inMax outMin outMax h,
    fun h1 h2 =>
      ⟨fun ho => (mapRangeLog_mono inMin inMax outMin outMax h h1 ho).monotoneOn _,
       fun ho => (mapRangeLog_anti inMin inMax outMin outMax h h2 ho).antitoneOn _,
       fun v => mapRangeLog_bounds v inMin inMax outMin outMax h h1 h2⟩,
    ?_, ?_⟩
  · intro v hv
    simp only [mapRange]
    rw [tfrac_of_le_inMin v inMin inMax h hv, tfrac_of_le_inMin inMin inMin inMax h le_rfl]
  · intro v hv
    simp only [mapRange]
    rw [tfrac_of_inMax_le v inMin inMax h hv, tfrac_of_inMax_le inMax inMin inMax h le_rfl]
  · intro v hv
    simp only [mapRangeLog]
    rw [tfrac_of_le_inMin v inMin inMax h hv, tfrac_of_le_inMin inMin inMin inMax h le_rfl]
  · intro v hv
    simp only [mapRangeLog]
    rw [tfrac_of_inMax_le v inMin inMax h hv, tfrac_of_inMax_le inMax inMin inMax h le_rfl]

/-- Witness for C5 at the solar-wind cutoff mapping 250..800 to
400..4000 (the spec example: wind speed 100 maps like 250, 1000 like
800). -/
theorem C5_range_maps_clamped_witness :
    (250 : ℝ) < 800 ∧
    (mapRange 100 250 800 400 4000 = mapRange 250 250 800 400 4000 ∧
     mapRange 1000 250 800 400 4000 = mapRange 800 250 800 400 4000 ∧
     mapRangeLog 100 250 800 400 4000 = mapRangeLog 250 250 800 400 4000 ∧
     mapRangeLog 1000 250 800 400 4000 = mapRangeLog 800 250 800 400 4000) := by
  have h := C5_range_maps_clamped 250 800 400 4000 (by norm_num)
  exact ⟨by norm_num,
    h.2.2.1 100 (by norm_num), h.2.2.2.1 1000 (by norm_num),
    h.2.2.2.2.2.2.1 100 (by norm_num), h.2.2.2.2.2.2.2 1000 (by norm_num)⟩

/-- C1 counterexample: on the kp stream the scheduled LFO-depth target
is candidate times sensitivity, not the claimed blend
sensitivity times candidate plus (1 - sensitivity) times the current
LFO depth: at the concrete running engine (current LFO depth 80,
smoothed value 9, sensitivity one half) an LFO-depth automation is
scheduled, and its target (150) differs from the blend (190). -/
theorem C1_blend_counterexample :
    (∃ ev ∈ (engKp.applyDataMapping DataStream.kp 9 (1/2) false).events,
        ev.param = AParam.lfoDepth) ∧
    ∀ ev ∈ (engKp.applyDataMapping DataStream.kp 9 (1/2) false).events,
      ev.param = AParam.lfoDepth →
        ev.target ≠
          1 / 2 * mapRange
              (engKp.applyDataMapping DataStream.kp 9 (1/2) false).smoothedValue
              0 9 30 300 +
            (1 - 1 / 2) * engKp.lfoDepth := by
  have hsm : (engKp.applyDataMapping DataStream.kp 9 (1/2) false).smoothedValue = 9 := by
    norm_num [AudioEngine.applyDataMapping, engKp, EMA.update]
  have hev : (engKp.applyDataMapping DataStream.kp 9 (1/2) false).events =
      [⟨AParam.lfoDepth, 150, 1.5⟩, ⟨AParam.sharpElevenGain, 1/8, 1.5⟩,
       ⟨AParam.filterQ, 15/4, 1.5⟩] := by
    norm_num [AudioEngine.applyDataMapping, engKp, EMA.update,
      DEFAULT_SYNTH_PARAMS, mapRange]
  have h300 : mapRange 9 0 9 30 300 = 300 := by
    norm_num [mapRange]
  rw [hsm, hev]
  constructor
  · exact ⟨⟨AParam.lfoDepth, 150, 1.5⟩, by simp, rfl⟩
  · intro ev hmem hp
    rw [h300]
    simp only [List.mem_cons, List.not_mem_nil, or_false] at hmem
    rcases hmem with h | h | h
    · subst h
      norm_num [engKp]
    · subst h
      simp at hp
    · subst h
      simp at hp

/-- C1 amended: when the engine is running and not frozen,
applyDataMapping schedules every automation with time constant 1.5 s;
the filter cutoff, reverb mix and filter resonance targets are the
claimed blend sensitivity times candidate plus (1 - sensitivity)
times the engine-held parameter; but the LFO depth and color-voice
gain targets are candidate times sensitivity with no blend against
the current value, and the arp rate is assigned its candidate
directly (clamped to [300, 16000]) with no blend and no 1.5 s
automation. -/
theorem C1_mapping_amended (e : AudioEngine) (stream : DataStream)
    (raw s : ℝ) (hc : e.ctxAlive = true) (hr : e.running = true) :
    (∀ ev ∈ (e.applyDataMapping stream raw s false).events, ev.tau = 1.5) ∧
    (stream = DataStream.solarWindSpeed →
      (e.applyDataMapping stream raw s false).events =
        [⟨AParam.filterCutoff,
          s * mapRangeLog (e.dataEma.update raw).1 250 800 400 4000 +
            (1 - s) * e.params.filter.cutoff, 1.5⟩] ∧
      (e.applyDataMapping stream raw s false).engine.arpRate =
        max 300 (min 16000 (mapRange (e.dataEma.update raw).1 250 800 5000 1500))) ∧
    (stream = DataStream.solarWindDensity →
      (e.applyDataMapping stream raw s false).events =
        [⟨AParam.reverbMix,
          s * mapRange (e.dataEma.update raw).1 1 20 0.15 0.65 +
            (1 - s) * e.params.reverb.mix, 1.5⟩] ∧
      (e.applyDataMapping stream raw s false).engine.arpRate = e.arpRate) ∧
    (stream = DataStream.kp →
      (∃ ev ∈ (e.applyDataMapping stream raw s false).events,
        ev.param = AParam.lfoDepth ∧
          ev.target = s * mapRange (e.dataEma.update raw).1 0 9 30 300) ∧
      (∃ ev ∈ (e.applyDataMapping stream raw s false).events,
        ev.param = AParam.filterQ ∧
          ev.target = s * mapRange (e.dataEma.update raw).1 0 9 0.5 6 +
            (1 - s) * e.params.filter.resonance) ∧
      (e.sharpElevenVoice = true →
        ∃ ev ∈ (e.applyDataMapping stream raw s false).events,
          ev.param = AParam.sharpElevenGain ∧
            ev.target = s * mapRange (e.dataEma.update raw).1 0 9 0.02 0.25) ∧
      (e.applyDataMapping stream raw s false).engine.arpRate = e.arpRate) ∧
    (stream = DataStream.xray →
      (e.applyDataMapping stream raw s false).events =
        [⟨AParam.filterCutoff,
          s * mapRangeLog
              (mapRange (Real.logb 10 (max (e.dataEma.update raw).1 (1 / 1000000000)))
                (-8) (-4) 0 1) 0 1 600 5000 +
            (1 - s) * e.params.filter.cutoff, 1.5⟩,
         ⟨AParam.reverbMix,
          s * mapRange
              (mapRange (Real.logb 10 (max (e.dataEma.update raw).1 (1 / 1000000000)))
                (-8) (-4) 0 1) 0 1 0.1 0.6 +
            (1 - s) * e.params.reverb.mix, 1.5⟩] ∧
      (e.applyDataMapping stream raw s false).engine.arpRate = e.arpRate) := by
  refine ⟨?_, ?_, ?_, ?_, ?_⟩
  · intro ev hmem
    cases stream <;>
      simp only [AudioEngine.applyDataMapping, hc, hr, Bool.not_true,
        Bool.or_self, Bool.or_false, Bool.false_or, Bool.false_eq_true,
        if_false] at hmem
    case solarWindSpeed =>
      simp only [List.mem_singleton] at hmem
      subst hmem; rfl
    case solarWindDensity =>
      simp only [List.mem_singleton] at hmem
      subst hmem; rfl
    case kp =>
      cases hsh : e.sharpElevenVoice <;>
        simp only [hsh, if_true, if_false, List.nil_append, List.singleton_append,
          List.mem_cons, List.not_mem_nil, or_false, Bool.false_eq_true] at hmem
      · rcases hmem with h | h <;> (subst h; rfl)
      · rcases hmem with h | h | h <;> (subst h; rfl)
    case xray =>
      simp only [List.mem_cons, List.not_mem_nil, or_false] at hmem
      rcases hmem with h | h <;> (subst h; rfl)
  · intro hst
    subst hst
    simp only [AudioEngine.applyDataMapping, hc, hr, Bool.not_true,
      Bool.or_self, Bool.or_false, Bool.false_or, Bool.false_eq_true,
      if_false, AudioEngine.setArpRate]
    refine ⟨?_, trivial⟩
    simp only [SchedEvent.mk.injEq, List.cons.injEq, and_true, true_and]
    ring
  · intro hst
    subst hst
    simp only [AudioEngine.applyDataMapping, hc, hr, Bool.not_true,
      Bool.or_self, Bool.or_false, Bool.false_or, Bool.false_eq_true,
      if_false]
    refine ⟨?_, trivial⟩
    simp only [SchedEvent.mk.injEq, List.cons.injEq, and_true, true_and]
    ring
  · intro hst
    subst hst
    simp only [AudioEngine.applyDataMapping, hc, hr, Bool.not_true,
      Bool.or_self, Bool.or_false, Bool.false_or, Bool.false_eq_true,
      if_false]
    refine ⟨⟨⟨AParam.lfoDepth, mapRange (e.dataEma.update raw).1 0 9 30 300 * s, 1.5⟩,
        by simp, rfl, by ring⟩, ?_, ?_, trivial⟩
    · refine ⟨⟨AParam.filterQ,
        mapRange (e.dataEma.update raw).1 0 9 0.5 6 * s +
          e.params.filter.resonance * (1 - s), 1.5⟩, ?_, rfl, by ring⟩
      cases hsh : e.sharpElevenVoice <;> simp [hsh]
    · intro hsh
      refine ⟨⟨AParam.sharpElevenGain,
        mapRange (e.dataEma.update raw).1 0 9 0.02 0.25 * s, 1.5⟩, ?_, rfl, by ring⟩
      simp [hsh]
  · intro hst
    subst hst
    simp only [AudioEngine.applyDataMapping, hc, hr, Bool.not_true,
      Bool.or_self, Bool.or_false, Bool.false_or, Bool.false_eq_true,
      if_false]
    refine ⟨?_, trivial⟩
    simp only [SchedEvent.mk.injEq, List.cons.injEq, and_true, true_and]
    constructor <;> ring

/-- Witness for C1 amended at the concrete running engine on the kp
stream: every scheduled automation there uses the 1.5 s time
constant. -/
theorem C1_mapping_amended_witness :
    engKp.ctxAlive = true ∧ engKp.running = true ∧
    ∀ ev ∈ (engKp.applyDataMapping DataStream.kp 9 (1/2) false).events,
      ev.tau = 1.5 :=
  ⟨rfl, rfl, (C1_mapping_amended engKp DataStream.kp 9 (1/2) rfl rfl).1⟩

end SpaceWeather
